import Mathlib

/-!
# Verification of the Sentilux sentiment-analysis client core

Shallow embedding of the client-side analysis state and aggregation engine
of the Sentilux dashboard (the React `App` component, its `geminiService`
provider wrappers and the shared types).

Modelling conventions:

* JavaScript strings are modelled as `List Char` (`Str`), with structural
  reimplementations of `trim`, `split` and the quote-stripping regex, so that
  all definitions are executable and kernel-reducible.
* The two network providers are opaque oracles.  A completed
  `analyzeSentiment` round trip is an `Outcome`: either the parsed list of
  raw result objects (text + analyses) or a failure (covering a thrown
  error, an empty response body and unparsable JSON, all of which the source
  funnels into the same `catch`).
* `crypto.randomUUID()` is modelled as an external id oracle
  `uuidOf : Nat → Str` together with a draw counter in the state: the k-th
  call of the process returns `uuidOf k`.
* React `useState`/`useRef` cells become fields of `AppState`; each event
  handler of the component becomes one transition of `step`.  An async
  handler is modelled as a single atomic transition carrying its provider
  `Outcome`, except the tone-improvement flow, whose start and resolution
  are separate events so that a dismiss can be interleaved (the stale
  response scenario).
* `AppState.calls` is an instrumentation field that does not exist in the
  source: it records the argument of every actual provider invocation
  (every time control reaches `await analyzeSentiment(...)`), so that
  "no provider call is made" can be stated.
-/

namespace Sentilux

/-- JavaScript strings, modelled as lists of characters. -/
abbrev Str := List Char

/-- Whitespace recognised by the model of `String.prototype.trim`
(space, tab, newline, carriage return cover every character occurring in
this development). -/
def isWs (c : Char) : Bool := c = ' ' || c = '\t' || c = '\n' || c = '\r'

/-- Model of JavaScript `s.trim()`: drop whitespace from both ends. -/
def trim (s : Str) : Str := ((s.dropWhile isWs).reverse.dropWhile isWs).reverse

/-- Model of JavaScript `s.split(sep)` for a one-character separator.
`''.split(sep)` is `['']`, matching JS. -/
def splitOnChar (sep : Char) : Str → List Str
  | [] => [[]]
  | c :: rest =>
    match splitOnChar sep rest with
    | [] => [[c]]
    | h :: t => if c = sep then [] :: h :: t else (c :: h) :: t

/-- Decimal digits of a natural number, fuelled so that it is structural
(and hence kernel-reducible); the fuel `n + 1` always suffices. -/
def natDigits : Nat → Nat → Str → Str
  | 0, _, acc => acc
  | fuel + 1, n, acc =>
    let d := Char.ofNat (48 + n % 10)
    if n < 10 then d :: acc else natDigits fuel (n / 10) (d :: acc)

/-- Model of JavaScript number-to-string coercion for naturals
(as used by the template literal building the trend labels). -/
def natToStr (n : Nat) : Str := natDigits (n + 1) n []

/-- Model of JavaScript `Math.round` on finite values: round half toward
positive infinity. -/
def jsRound (q : ℚ) : ℤ := Int.floor (q + 1 / 2)

/-- `types.ts`: the closed sentiment enumeration `SentimentType`. -/
inductive SentimentType
  | Positive
  | Negative
  | Neutral
deriving DecidableEq

/-- `types.ts`: `SentimentAnalysis` — one judgment from one provider. -/
structure SentimentAnalysis where
  provider : Str
  sentiment : SentimentType
  confidence : ℚ
  keywords : List Str
  explanation : Str
deriving DecidableEq

/-- `types.ts`: `SentimentResult` — one submitted text with its analyses,
id and timestamp. -/
structure SentimentResult where
  id : Str
  text : Str
  timestamp : Str
  analyses : List SentimentAnalysis
deriving DecidableEq

/-- A provider response item before the client stamps id and timestamp:
the `text`/`analyses` objects parsed out of the model's JSON answer in
`geminiService.analyzeSentiment`. -/
structure RawResult where
  text : Str
  analyses : List SentimentAnalysis
deriving DecidableEq

/-- The tone-improvement provider's parsed answer
(`getImprovementSuggestions` return shape). -/
structure ToneSuggestion where
  improvedText : Str
  wordChanges : List (Str × Str)
  reasoning : Str
deriving DecidableEq

/-- Result of one completed `analyzeSentiment` round trip, as observed by
the caller's `try`/`catch`: either the parsed raw results, or a failure
(thrown error, empty `response.text`, or a `JSON.parse` error — the source
turns all three into the same rejection). -/
inductive Outcome
  | success (raw : List RawResult)
  | failure
deriving DecidableEq

/-- `geminiService.analyzeSentiment`, success path, lines 72–76: map over
the parsed results, stamping each with a fresh `crypto.randomUUID()` (one
oracle draw per element, in list order) and the current timestamp.
Returns the stamped results; the companion counter bookkeeping is in
`analyzeSentiment`. -/
def stampResults (uuidOf : Nat → Str) (now : Str) : Nat → List RawResult → List SentimentResult
  | _, [] => []
  | c, r :: rest =>
    { id := uuidOf c, text := r.text, timestamp := now, analyses := r.analyses } ::
      stampResults uuidOf now (c + 1) rest

/-- `geminiService.analyzeSentiment` (success case): stamp the raw results
and advance the uuid-draw counter by the number of results. -/
def analyzeSentiment (uuidOf : Nat → Str) (c : Nat) (now : Str)
    (raw : List RawResult) : List SentimentResult × Nat :=
  (stampResults uuidOf now c raw, c + raw.length)

/-- The three user-facing error strings of the component, as a closed
enumeration.  The exact source texts are:
`analysisFailed` = "Analysis failed. Verify your connection or API key.",
`improveFailed` = "Failed to generate suggestions.",
`emptyInput` = "Please enter some text to analyze.". -/
inductive ErrMsg
  | analysisFailed
  | improveFailed
  | emptyInput
deriving DecidableEq

/-- The component state: every `useState`/`useRef` cell of `App` that the
core behaviour reads or writes.  Presentation-only cells (`activeTab`,
`isSidebarOpen`, `inputText`, `selectedProvider`) are omitted: no claimed
behaviour depends on them.  `uuidCounter` counts `crypto.randomUUID()`
draws; `calls` is the instrumentation log of provider invocations. -/
structure AppState where
  isLoading : Bool
  results : List SentimentResult
  history : List SentimentResult
  error : Option ErrMsg
  showGuide : Bool
  improvingText : Option (Str × Str)
  isImproving : Bool
  suggestion : Option ToneSuggestion
  lastAnalyzedText : Str
  uuidCounter : Nat
  calls : List (List Str)
deriving DecidableEq

/-- The initial state of the component (`useState` initialisers and
`useRef('')`). -/
def initialState : AppState where
  isLoading := false
  results := []
  history := []
  error := none
  showGuide := true
  improvingText := none
  isImproving := false
  suggestion := none
  lastAnalyzedText := []
  uuidCounter := 0
  calls := []

/-- `App.handleAnalysis` (lines 58–72), one complete run modelled
atomically.  Guard: return unchanged when the batch is empty or every
text is blank after trimming.  Otherwise the provider is invoked (logged
in `calls`); on success `results` is replaced wholesale, the same batch is
prepended to `history`, and the first-run guide flag is cleared; on
failure only the error message is set.  The loading flag is set on entry
and cleared in the `finally`, so it is false in the post-state of the
atomic transition. -/
def handleAnalysis (uuidOf : Nat → Str) (now : Str) (st : AppState)
    (texts : List Str) (o : Outcome) : AppState :=
  if texts.isEmpty || texts.all (fun t => (trim t).isEmpty) then st
  else
    let st1 := { st with isLoading := true, error := none, calls := st.calls ++ [texts] }
    match o with
    | .success raw =>
      let pr := analyzeSentiment uuidOf st.uuidCounter now raw
      { st1 with
          results := pr.1
          history := pr.1 ++ st1.history
          showGuide := false
          uuidCounter := pr.2
          isLoading := false }
    | .failure =>
      { st1 with error := some .analysisFailed, isLoading := false }

/-- `App.onFileUpload` parsing (lines 104–111): strip a leading and a
trailing quote character, the model of `replace(/^"|"$/g, '')` (the two
anchored alternatives each fire at most once). -/
def stripQuotes (s : Str) : Str :=
  let s1 := match s with
    | '"' :: rest => rest
    | other => other
  match s1.reverse with
  | '"' :: rest => rest.reverse
  | _ => s1

/-- `App.onFileUpload` line extraction (lines 104–111): for a `.csv` file
take each line's first comma field, strip surrounding quotes and trim;
otherwise trim each line verbatim; in both cases keep only lines of
length greater than 5. -/
def processUpload (isCsv : Bool) (content : Str) : List Str :=
  if isCsv then
    ((splitOnChar '\n' content).map
        (fun l => trim (stripQuotes ((splitOnChar ',' l).headD [])))).filter
      (fun l => 5 < l.length)
  else
    ((splitOnChar '\n' content).map (fun l => trim l)).filter (fun l => 5 < l.length)

/-- The events that drive the component, one per handler or resolved
callback of the source.  Analysis round trips are atomic and carry their
`Outcome`; the tone-improvement request is split into `improveStart`
(handler entry, before the await) and `improveResolve` (the response
callback: `some d` for success, `none` for the catch branch), so stale
responses can arrive after `improveDismiss`. -/
inductive Ev
  | analyze (texts : List Str) (o : Outcome) (now : Str)
  | manual (input : Str) (o : Outcome) (now : Str)
  | settled (v : Str) (o : Outcome) (now : Str)
  | upload (isCsv : Bool) (content : Str) (o : Outcome) (now : Str)
  | clearHistory
  | dismissGuide
  | toggleHelp
  | helpCircle
  | improveStart (srcId srcText : Str)
  | improveResolve (r : Option ToneSuggestion)
  | improveDismiss
  | clearError
deriving DecidableEq

/-- One transition of the component.
* `analyze` — a direct `handleAnalysis` run (used by the bulk path too).
* `manual` — `manualAnalyze` (lines 74–81): blank input sets an error and
  stops; otherwise the last-analyzed tracker is set to the input before
  `handleAnalysis([inputText])` runs.
* `settled` — the auto-analysis effect (lines 51–56) running on a settled
  debounced value: trigger only when the trimmed length exceeds 20 and the
  value differs from the tracker; the tracker is updated before the call.
* `upload` — `onFileUpload` (lines 97–115): sets loading, extracts lines,
  and only when some line survives submits the first 10.
* `clearHistory` — the Clear Archives button (line 584).
* `dismissGuide` — the guide dismiss buttons (lines 299, 256 when open).
* `toggleHelp` — the Help Center button (line 256), `setShowGuide(!showGuide)`.
* `helpCircle` — the header help button (line 287), `setShowGuide(true)`.
* `improveStart` — `handleImproveRequest` entry (lines 83–86).
* `improveResolve` — its response, `setSuggestion(data)` or the catch
  setting the error, then the `finally` clearing `isImproving`; note the
  source applies it without checking that the session is still open.
* `improveDismiss` — closing the suggestion modal (lines 630, 633, 678):
  `setImprovingText(null)` only.
* `clearError` — dismissing the error toast (line 690). -/
def step (uuidOf : Nat → Str) (st : AppState) : Ev → AppState
  | .analyze texts o now => handleAnalysis uuidOf now st texts o
  | .manual input o now =>
    if (trim input).isEmpty then { st with error := some .emptyInput }
    else handleAnalysis uuidOf now { st with lastAnalyzedText := input } [input] o
  | .settled v o now =>
    if 20 < (trim v).length ∧ v ≠ st.lastAnalyzedText then
      handleAnalysis uuidOf now { st with lastAnalyzedText := v } [v] o
    else st
  | .upload isCsv content o now =>
    let st1 := { st with isLoading := true }
    let lns := processUpload isCsv content
    if lns.isEmpty then st1 else handleAnalysis uuidOf now st1 (lns.take 10) o
  | .clearHistory => { st with history := [] }
  | .dismissGuide => { st with showGuide := false }
  | .toggleHelp => { st with showGuide := !st.showGuide }
  | .helpCircle => { st with showGuide := true }
  | .improveStart srcId srcText =>
    { st with improvingText := some (srcId, srcText), isImproving := true, suggestion := none }
  | .improveResolve r =>
    match r with
    | some d => { st with suggestion := some d, isImproving := false }
    | none => { st with error := some .improveFailed, isImproving := false }
  | .improveDismiss => { st with improvingText := none }
  | .clearError => { st with error := none }

/-- Run a trace of events from a state. -/
def run (uuidOf : Nat → Str) (st : AppState) (evs : List Ev) : AppState :=
  evs.foldl (step uuidOf) st

/-- All results currently stored: the history log together with the
current-results set. -/
def storedResults (st : AppState) : List SentimentResult := st.history ++ st.results

/-- The id-freshness invariant behind C8: every stored result's id was
drawn from the id oracle at a position below the current draw counter,
and among all stored results (history together with currentResults) the
id determines the result — no two distinct stored results share an id. -/
def IdsOk (uuidOf : Nat → Str) (st : AppState) : Prop :=
  (∀ r ∈ storedResults st, ∃ k, k < st.uuidCounter ∧ r.id = uuidOf k) ∧
  (∀ r1 ∈ storedResults st, ∀ r2 ∈ storedResults st, r1.id = r2.id → r1 = r2)

/-- The suggestion visible to the user: the modal (line 628) renders only
while `improvingText` is non-null, and the suggestion panel (line 656)
lives inside it, so a stored suggestion is displayed only when the session
is open. -/
def displayedSuggestion (st : AppState) : Option ToneSuggestion :=
  if st.improvingText.isSome then st.suggestion else none

/-- `useDebounce` (lines 19–26): given timed edits `(t, v)` in increasing
time order, an edit settles (its `setTimeout` fires) iff no later edit
clears its timer within `delay`, i.e. the next edit is strictly later
than `t + delay` (and for the final edit, the observation horizon `tEnd`
has passed `t + delay`).  Returns the settled values in order. -/
def settles (delay tEnd : Nat) : List (Nat × Str) → List Str
  | [] => []
  | e :: rest =>
    match rest with
    | [] => if e.1 + delay ≤ tEnd then [e.2] else []
    | e2 :: _ => (if e.1 + delay < e2.1 then [e.2] else []) ++ settles delay tEnd rest

/-- The per-entry sentiment tally used by the trend view
(`h.analyses.filter(a => a.sentiment === s).length`, lines 171–173). -/
def countSentiment (s : SentimentType) (h : SentimentResult) : Nat :=
  (h.analyses.filter (fun a => a.sentiment = s)).length

/-- Mean confidence of one entry as a rounded percentage (line 167 and
170): `Math.round(avg * 100)` where `avg` is sum of confidences over the
number of analyses.  For an entry with no analyses the source computes
`0 / 0 = NaN`, whose rounding is `NaN`; that non-value is modelled as
`none`. -/
def meanConfPercent (h : SentimentResult) : Option ℤ :=
  if h.analyses.length = 0 then none
  else some (jsRound ((h.analyses.map (fun a => a.confidence)).sum / (h.analyses.length : ℚ) * 100))

/-- One point of the time-series trend view. -/
structure TimePoint where
  name : Str
  confidence : Option ℤ
  pos : Nat
  neg : Nat
  neu : Nat
deriving DecidableEq

/-- `App.timeSeriesData` (lines 165–176):
`[...history].reverse().slice(-15).map((h, i) => ...)` — reverse the
newest-first history into chronological order, keep the last 15 (the most
recent 15, oldest of them first), and label point `i` with
`` `T-${15 - i}` ``. -/
def timeSeriesData (history : List SentimentResult) : List TimePoint :=
  ((history.reverse.drop (history.length - 15)).enum).map fun p =>
    { name := ['T', '-'] ++ natToStr (15 - p.1)
      confidence := meanConfPercent p.2
      pos := countSentiment .Positive p.2
      neg := countSentiment .Negative p.2
      neu := countSentiment .Neutral p.2 }

/-- The predicate the first analysis of a result satisfies when it counts
toward the radial numerator: `r.analyses[0]?.sentiment === 'Positive'`
(line 197); an entry with no analyses compares `undefined` and is false. -/
def isFirstPositive (r : SentimentResult) : Bool :=
  match r.analyses.head? with
  | some a => a.sentiment = .Positive
  | none => false

/-- `App.radialData` (lines 195–202): over currentResults if non-empty
else history, the percentage of entries whose first analysis is Positive,
with the denominator `data.length || 1`.  Only the numeric value is kept;
the constant label "Success Rate" and fill colour are presentation. -/
def radialData (results history : List SentimentResult) : List ℤ :=
  let data := if results.length > 0 then results else history
  let posCount := (data.filter isFirstPositive).length
  let total : Nat := if data.length = 0 then 1 else data.length
  [jsRound ((posCount : ℚ) / (total : ℚ) * 100)]

/-- The four background themes produced by `App.moodColors`
(lines 128–138), abstracted from the distinct CSS gradient strings:
`defaultTheme` = the linear-gradient for an empty source set,
`positiveTheme`/`negativeTheme`/`neutralTheme` = the three radial
gradients.  The source's `default:` switch branch is unreachable because
`sentiment` is the closed three-value enumeration. -/
inductive MoodTheme
  | defaultTheme
  | positiveTheme
  | negativeTheme
  | neutralTheme
deriving DecidableEq

/-- `App.moodColors` (lines 128–138): source set is currentResults if
non-empty else the first history entry; empty set gives the default
theme; otherwise `data[0]?.analyses[0]?.sentiment || 'Neutral'` selects
the theme, falling back to Neutral when the first entry has no
analyses. -/
def moodColors (results history : List SentimentResult) : MoodTheme :=
  let data := if results.length > 0 then results else history.take 1
  match data.head? with
  | none => .defaultTheme
  | some r =>
    match (r.analyses.head?.map (fun a => a.sentiment)).getD .Neutral with
    | .Positive => .positiveTheme
    | .Negative => .negativeTheme
    | .Neutral => .neutralTheme

/-! ## Spec-side restatements (for refinement claims) -/

/-- The claim's wording of per-line extraction in `onFileUpload`: for a
delimited-values file, the line's first comma-delimited field with its
surrounding quote characters stripped and whitespace trimmed; otherwise
the line verbatim, trimmed. -/
def extractLine (isCsv : Bool) (l : Str) : Str :=
  if isCsv then trim (stripQuotes ((splitOnChar ',' l).headD [])) else trim l

/-- The claim's wording of the bulk-upload pipeline: extract every line
and discard the lines whose trimmed length is at most 5. -/
def processUploadSpec (isCsv : Bool) (content : Str) : List Str :=
  ((splitOnChar '\n' content).map (extractLine isCsv)).filter (fun l => ¬l.length ≤ 5)

/-- The amended wording of the trend view: the most recent 15 history
entries in chronological order (`history` is newest-first, so take 15 and
reverse), point `i` labelled `T-(15 - i)` and carrying the mean
confidence percentage and the per-sentiment counts of its entry. -/
def timeSeriesSpec (history : List SentimentResult) : List TimePoint :=
  (((history.take 15).reverse).enum).map fun p =>
    { name := ['T', '-'] ++ natToStr (15 - p.1)
      confidence := meanConfPercent p.2
      pos := countSentiment .Positive p.2
      neg := countSentiment .Negative p.2
      neu := countSentiment .Neutral p.2 }

/-- The claim's labelling requirement for the trend points: each point is
labelled by its reverse-chronological offset from the newest point, i.e.
point `i` of `n` (chronological order) is `T-(n - i)`, so the newest is
`T-1`. -/
def claimLabels (pts : List TimePoint) : Prop :=
  ∀ (i : Nat) (h : i < pts.length),
    (pts.get ⟨i, h⟩).name = ['T', '-'] ++ natToStr (pts.length - i)

/-! ## Concrete sample data for witnesses and counterexamples -/

/-- The claim's example CSV content: the two lines
`"Great service",5` and `"ok"`. -/
def exampleCsv : Str :=
  ['"', 'G', 'r', 'e', 'a', 't', ' ', 's', 'e', 'r', 'v', 'i', 'c', 'e', '"', ',', '5', '\n',
    '"', 'o', 'k', '"']

/-- The single line the claim expects to survive: `Great service`. -/
def exampleExtracted : Str :=
  ['G', 'r', 'e', 'a', 't', ' ', 's', 'e', 'r', 'v', 'i', 'c', 'e']

/-- A concrete injective id oracle: the n-th draw is a run of n `u`s. -/
def u0 : Nat → Str := fun n => List.replicate n 'u'

/-- A short non-blank sample text. -/
def t0 : Str := ['a', 'b', 'c']

/-- A sample timestamp. -/
def n0 : Str := ['t']

/-- A sample provider response item with no analyses. -/
def raw0 : RawResult := { text := t0, analyses := [] }

/-- A result with an empty `analyses` sequence. -/
def sampleEmpty : SentimentResult := { id := [], text := [], timestamp := [], analyses := [] }

/-- A sample tone suggestion. -/
def sug0 : ToneSuggestion := { improvedText := ['o', 'k'], wordChanges := [], reasoning := [] }

/-- A 25-character input value (trimmed length 25 > 20). -/
def v25 : Str := List.replicate 25 'x'

/-! ## Helper lemmas -/

theorem stampResults_length (uuidOf : Nat → Str) (now : Str) :
    ∀ (c : Nat) (raw : List RawResult), (stampResults uuidOf now c raw).length = raw.length := by
  intro c raw
  induction raw generalizing c with
  | nil => rfl
  | cons r rest ih => simp [stampResults, ih]

theorem stampResults_texts (uuidOf : Nat → Str) (now : Str) :
    ∀ (c : Nat) (raw : List RawResult),
      (stampResults uuidOf now c raw).map (fun r => r.text) = raw.map (fun r => r.text) := by
  intro c raw
  induction raw generalizing c with
  | nil => rfl
  | cons r rest ih => simp [stampResults, ih]

theorem u0_injective : Function.Injective u0 := by
  intro a b h
  simpa [u0] using congrArg List.length h

/-! ## Claims -/

/-- C1: after a successful `submitBatch` call (`handleAnalysis` with a
successful provider outcome on a usable batch), `currentResults` equals
exactly the returned `AnalysisResults` in the provider's returned order,
the first n entries of `history` equal `currentResults` in the same
order, and all prior history entries follow them unchanged. -/
theorem C1_atomic_batch_replace (uuidOf : Nat → Str) (st : AppState)
    (texts : List Str) (raw : List RawResult) (now : Str)
    (h : (texts.isEmpty || texts.all (fun t => (trim t).isEmpty)) = false) :
    (handleAnalysis uuidOf now st texts (.success raw)).results =
      (analyzeSentiment uuidOf st.uuidCounter now raw).1 ∧
    (handleAnalysis uuidOf now st texts (.success raw)).results.map (fun r => r.text) =
      raw.map (fun r => r.text) ∧
    (handleAnalysis uuidOf now st texts (.success raw)).history.take raw.length =
      (handleAnalysis uuidOf now st texts (.success raw)).results ∧
    (handleAnalysis uuidOf now st texts (.success raw)).history.drop raw.length =
      st.history := by
  refine ⟨?_, ?_, ?_, ?_⟩
  · simp [handleAnalysis, h, analyzeSentiment]
  · simp [handleAnalysis, h, analyzeSentiment, stampResults_texts]
  · simp only [handleAnalysis, h, Bool.false_eq_true, if_false, analyzeSentiment]
    rw [← stampResults_length uuidOf now st.uuidCounter raw, List.take_left]
  · simp only [handleAnalysis, h, Bool.false_eq_true, if_false, analyzeSentiment]
    rw [← stampResults_length uuidOf now st.uuidCounter raw, List.drop_left]

/-- Witness for C1 at a concrete state and batch. -/
theorem C1_witness :
    (handleAnalysis u0 n0 initialState [t0] (.success [raw0])).results =
      (analyzeSentiment u0 initialState.uuidCounter n0 [raw0]).1 ∧
    (handleAnalysis u0 n0 initialState [t0] (.success [raw0])).results.map (fun r => r.text) =
      [raw0].map (fun r => r.text) ∧
    (handleAnalysis u0 n0 initialState [t0] (.success [raw0])).history.take 1 =
      (handleAnalysis u0 n0 initialState [t0] (.success [raw0])).results ∧
    (handleAnalysis u0 n0 initialState [t0] (.success [raw0])).history.drop 1 =
      initialState.history :=
  C1_atomic_batch_replace u0 initialState [t0] [raw0] n0 (by decide)

/-- C2: when the provider call of a `submitBatch` run fails (throws, or
returns empty or unparsable content — all collapsed into
`Outcome.failure`), a human-readable error message is set,
`currentResults` and `history` are exactly as before the call, and the
loading flag is cleared at completion. -/
theorem C2_failure_preserves_store (uuidOf : Nat → Str) (st : AppState)
    (texts : List Str) (now : Str)
    (h : (texts.isEmpty || texts.all (fun t => (trim t).isEmpty)) = false) :
    (handleAnalysis uuidOf now st texts .failure).error = some .analysisFailed ∧
    (handleAnalysis uuidOf now st texts .failure).results = st.results ∧
    (handleAnalysis uuidOf now st texts .failure).history = st.history ∧
    (handleAnalysis uuidOf now st texts .failure).isLoading = false := by
  simp [handleAnalysis, h]

/-- Witness for C2 at a concrete state and batch. -/
theorem C2_witness :
    (handleAnalysis u0 n0 initialState [t0] .failure).error = some .analysisFailed ∧
    (handleAnalysis u0 n0 initialState [t0] .failure).results = initialState.results ∧
    (handleAnalysis u0 n0 initialState [t0] .failure).history = initialState.history ∧
    (handleAnalysis u0 n0 initialState [t0] .failure).isLoading = false :=
  C2_failure_preserves_store u0 initialState [t0] n0 (by decide)

/-- The first-run guide flag can only survive `handleAnalysis` as true if
it was true before (a successful run clears it, all other paths leave it
alone). -/
theorem handleAnalysis_showGuide (uuidOf : Nat → Str) (now : Str) (st : AppState)
    (texts : List Str) (o : Outcome)
    (h : (handleAnalysis uuidOf now st texts o).showGuide = true) : st.showGuide = true := by
  unfold handleAnalysis at h
  split at h
  · exact h
  · cases o with
    | success raw => simp at h
    | failure => exact h

/-- C3 counterexample: dismissing the tone session while the improvement
request is in flight, then letting the stale response resolve, leaves the
session closed but stores the suggestion — the source applies
`setSuggestion(data)` without any session-generation guard, so "no stored
suggestion" is false. -/
theorem C3_counterexample_stale :
    (run u0 initialState
        [.improveStart t0 t0, .improveDismiss, .improveResolve (some sug0)]).improvingText
      = none ∧
    (run u0 initialState
        [.improveStart t0 t0, .improveDismiss, .improveResolve (some sug0)]).suggestion
      = some sug0 ∧
    some sug0 ≠ (none : Option ToneSuggestion) := by
  decide

/-- C3 amended: a late tone-improvement response never reopens the
session (`improvingText` is untouched by either resolution), but a
successful late response does store the suggestion and clears the
in-flight flag; the stored suggestion is not displayed while the session
is closed, and it is discarded when the next session starts. -/
theorem C3_stale_response (uuidOf : Nat → Str) (st : AppState) (d : ToneSuggestion)
    (srcId srcText : Str) (h : st.improvingText = none) :
    (step uuidOf st (.improveResolve (some d))).improvingText = none ∧
    (step uuidOf st (.improveResolve none)).improvingText = none ∧
    (step uuidOf st (.improveResolve (some d))).suggestion = some d ∧
    (step uuidOf st (.improveResolve (some d))).isImproving = false ∧
    displayedSuggestion (step uuidOf st (.improveResolve (some d))) = none ∧
    (step uuidOf st (.improveStart srcId srcText)).suggestion = none := by
  simp [step, displayedSuggestion, h]

/-- Witness for C3 at the concrete dismissed-while-in-flight state. -/
theorem C3_witness :
    (step u0 (run u0 initialState [.improveStart t0 t0, .improveDismiss])
        (.improveResolve (some sug0))).improvingText = none ∧
    (step u0 (run u0 initialState [.improveStart t0 t0, .improveDismiss])
        (.improveResolve none)).improvingText = none ∧
    (step u0 (run u0 initialState [.improveStart t0 t0, .improveDismiss])
        (.improveResolve (some sug0))).suggestion = some sug0 ∧
    (step u0 (run u0 initialState [.improveStart t0 t0, .improveDismiss])
        (.improveResolve (some sug0))).isImproving = false ∧
    displayedSuggestion (step u0 (run u0 initialState [.improveStart t0 t0, .improveDismiss])
        (.improveResolve (some sug0))) = none ∧
    (step u0 (run u0 initialState [.improveStart t0 t0, .improveDismiss])
        (.improveStart t0 t0)).suggestion = none :=
  C3_stale_response u0 (run u0 initialState [.improveStart t0 t0, .improveDismiss])
    sug0 t0 t0 (by decide)

/-- `handleAnalysis` never touches the last-analyzed tracker: the source
updates `lastAnalyzedText.current` only at the two call sites. -/
theorem handleAnalysis_last (uuidOf : Nat → Str) (now : Str) (st : AppState)
    (texts : List Str) (o : Outcome) :
    (handleAnalysis uuidOf now st texts o).lastAnalyzedText = st.lastAnalyzedText := by
  unfold handleAnalysis
  split
  · rfl
  · cases o <;> rfl

/-- A settled value that passes the auto-trigger guard issues exactly one
provider call for that value, with the tracker updated to it. -/
theorem settled_pos (uuidOf : Nat → Str) (st : AppState) (v : Str) (o : Outcome) (now : Str)
    (h : 20 < (trim v).length ∧ v ≠ st.lastAnalyzedText) :
    (step uuidOf st (.settled v o now)).calls = st.calls ++ [[v]] ∧
    (step uuidOf st (.settled v o now)).lastAnalyzedText = v := by
  have hne : trim v ≠ [] := by
    intro hv
    rw [hv] at h
    simp at h
  simp only [step, if_pos h]
  unfold handleAnalysis
  have hguard : (([v] : List Str).isEmpty
      || ([v] : List Str).all (fun t => (trim t).isEmpty)) = false := by
    simp [List.isEmpty_iff, hne]
  rw [hguard]
  simp only [Bool.false_eq_true, if_false]
  cases o <;> simp

/-- A settled value that fails the auto-trigger guard changes nothing. -/
theorem settled_neg (uuidOf : Nat → Str) (st : AppState) (v : Str) (o : Outcome) (now : Str)
    (h : ¬(20 < (trim v).length ∧ v ≠ st.lastAnalyzedText)) :
    step uuidOf st (.settled v o now) = st := by
  simp [step, h]

/-- Under a rapid burst of edits (each arriving within the debounce delay
of the previous one), at most one value settles, and it can only be the
final edit's value. -/
theorem settles_burst (delay tEnd : Nat) :
    ∀ (edits : List (Nat × Str)),
      List.Chain' (fun a b => b.1 ≤ a.1 + delay) edits →
      (settles delay tEnd edits).length ≤ 1 ∧
      ∀ w ∈ settles delay tEnd edits, ∃ h : edits ≠ [], w = (edits.getLast h).2 := by
  intro edits
  induction edits with
  | nil =>
    intro _
    simp [settles]
  | cons e rest ih =>
    intro hchain
    cases rest with
    | nil =>
      simp only [settles]
      split
      · refine ⟨by simp, ?_⟩
        intro w hw
        simp at hw
        exact ⟨by simp, by simp [hw]⟩
      · simp
    | cons e2 rest2 =>
      rw [List.chain'_cons] at hchain
      obtain ⟨h12, htail⟩ := hchain
      have hnot : ¬(e.1 + delay < e2.1) := by omega
      simp only [settles, if_neg hnot, List.nil_append]
      obtain ⟨ihlen, ihmem⟩ := ih htail
      refine ⟨ihlen, ?_⟩
      intro w hw
      obtain ⟨hne2, hval⟩ := ihmem w hw
      refine ⟨by simp, ?_⟩
      rw [List.getLast_cons hne2]
      exact hval

/-- C4: the auto-analysis effect triggers for a settled value exactly
when its trimmed length exceeds 20 and it differs from the last-analyzed
tracker, updating the tracker to the submitted text in the same
transition; re-settling the same value (also right after a manual
submission of it) never issues a second request; and a rapid burst of
edits inside the debounce window settles at most once, only for the final
value. -/
theorem C4_debounce_guard (uuidOf : Nat → Str) :
    (∀ (st : AppState) (v : Str) (o : Outcome) (now : Str),
        (20 < (trim v).length ∧ v ≠ st.lastAnalyzedText) →
        (step uuidOf st (.settled v o now)).calls = st.calls ++ [[v]] ∧
        (step uuidOf st (.settled v o now)).lastAnalyzedText = v) ∧
    (∀ (st : AppState) (v : Str) (o : Outcome) (now : Str),
        ¬(20 < (trim v).length ∧ v ≠ st.lastAnalyzedText) →
        step uuidOf st (.settled v o now) = st) ∧
    (∀ (st : AppState) (v : Str) (o o2 : Outcome) (now now2 : Str),
        (step uuidOf (step uuidOf st (.settled v o now)) (.settled v o2 now2)).calls =
          (step uuidOf st (.settled v o now)).calls) ∧
    (∀ (st : AppState) (input : Str) (o o2 : Outcome) (now now2 : Str),
        trim input ≠ [] →
        (step uuidOf (step uuidOf st (.manual input o now)) (.settled input o2 now2)).calls =
          (step uuidOf st (.manual input o now)).calls) ∧
    (∀ (delay tEnd : Nat) (edits : List (Nat × Str)),
        List.Chain' (fun a b => b.1 ≤ a.1 + delay) edits →
        (settles delay tEnd edits).length ≤ 1 ∧
        ∀ w ∈ settles delay tEnd edits, ∃ h : edits ≠ [], w = (edits.getLast h).2) := by
  refine ⟨settled_pos uuidOf, settled_neg uuidOf, ?_, ?_, fun d tE => settles_burst d tE⟩
  · intro st v o o2 now now2
    by_cases hc : 20 < (trim v).length ∧ v ≠ st.lastAnalyzedText
    · have h1 := settled_pos uuidOf st v o now hc
      have h2 : step uuidOf (step uuidOf st (.settled v o now)) (.settled v o2 now2) =
          step uuidOf st (.settled v o now) := by
        apply settled_neg
        rw [h1.2]
        simp
      rw [h2]
    · rw [settled_neg uuidOf st v o now hc, settled_neg uuidOf st v o2 now2 hc]
  · intro st input o o2 now now2 hin
    have hlast : (step uuidOf st (.manual input o now)).lastAnalyzedText = input := by
      simp only [step]
      have : (trim input).isEmpty = false := by simp [List.isEmpty_iff, hin]
      rw [this]
      simp only [Bool.false_eq_true, if_false]
      exact handleAnalysis_last uuidOf now _ [input] o
    have h2 : step uuidOf (step uuidOf st (.manual input o now)) (.settled input o2 now2) =
        step uuidOf st (.manual input o now) := by
      apply settled_neg
      rw [hlast]
      simp
    rw [h2]

/-- Witness for C4 at concrete values (a 25-character settled value, a
manual submission, and a two-edit burst 1000 time units apart with delay
1500). -/
theorem C4_witness :
    ((step u0 initialState (.settled v25 (.success []) n0)).calls =
        initialState.calls ++ [[v25]] ∧
      (step u0 initialState (.settled v25 (.success []) n0)).lastAnalyzedText = v25) ∧
    (step u0 (step u0 initialState (.settled v25 (.success []) n0))
        (.settled v25 .failure n0)).calls =
      (step u0 initialState (.settled v25 (.success []) n0)).calls ∧
    (step u0 (step u0 initialState (.manual t0 (.success []) n0))
        (.settled t0 .failure n0)).calls =
      (step u0 initialState (.manual t0 (.success []) n0)).calls ∧
    (settles 1500 10000 [(0, t0), (1000, v25)]).length ≤ 1 ∧
    ∀ w ∈ settles 1500 10000 [(0, t0), (1000, v25)],
      ∃ h : ([(0, t0), (1000, v25)] : List (Nat × Str)) ≠ [],
        w = (([(0, t0), (1000, v25)] : List (Nat × Str)).getLast h).2 :=
  ⟨(C4_debounce_guard u0).1 initialState v25 (.success []) n0 (by decide),
    (C4_debounce_guard u0).2.2.1 initialState v25 (.success []) .failure n0 n0,
    (C4_debounce_guard u0).2.2.2.1 initialState t0 (.success []) .failure n0 n0 (by decide),
    (C4_debounce_guard u0).2.2.2.2 1500 10000 [(0, t0), (1000, v25)]
      (by
        rw [List.chain'_cons]
        exact ⟨by norm_num, List.chain'_singleton _⟩)⟩

/-- C7 (code defect): a bulk upload in which zero lines survive the
length filter makes no provider call and surfaces no error, but the
loading flag set at the start of `onFileUpload` is never cleared —
nothing resets it when `lines.length > 0` fails, so the state is left
with `isLoading = true` after the file has been read.  Evaluated at the
two-line file "ok\nhi" (both lines of trimmed length ≤ 5). -/
theorem C7_empty_upload_stuck :
    (step u0 initialState (.upload false ['o', 'k', '\n', 'h', 'i'] (.success []) n0)).calls
      = initialState.calls ∧
    (step u0 initialState (.upload false ['o', 'k', '\n', 'h', 'i'] (.success []) n0)).error
      = initialState.error ∧
    (step u0 initialState (.upload false ['o', 'k', '\n', 'h', 'i'] (.success []) n0)).results
      = initialState.results ∧
    (step u0 initialState (.upload false ['o', 'k', '\n', 'h', 'i'] (.success []) n0)).history
      = initialState.history ∧
    (step u0 initialState (.upload false ['o', 'k', '\n', 'h', 'i'] (.success []) n0)).isLoading
      = true := by
  decide

/-- C9 counterexample: after the first successful analysis has cleared
the first-run guidance flag, the header help button (`setShowGuide(true)`,
line 287) re-enables it — "never re-enabled afterwards" is false. -/
theorem C9_counterexample_guide :
    (run u0 initialState [.analyze [t0] (.success [raw0]) n0]).showGuide = false ∧
    (run u0 initialState [.analyze [t0] (.success [raw0]) n0, .helpCircle]).showGuide = true := by
  decide

/-- C9 amended: every successful analysis of a usable batch clears the
first-run guidance flag, and the flag becomes true after a step only via
the explicit help actions (the Help Center toggle or the header help
button) or because it was already true — no analysis or data operation
re-enables it. -/
theorem C9_guide_flag (uuidOf : Nat → Str) :
    (∀ (st : AppState) (texts : List Str) (raw : List RawResult) (now : Str),
        (texts.isEmpty || texts.all (fun t => (trim t).isEmpty)) = false →
        (step uuidOf st (.analyze texts (.success raw) now)).showGuide = false) ∧
    (∀ (st : AppState) (ev : Ev), (step uuidOf st ev).showGuide = true →
        st.showGuide = true ∨ ev = .toggleHelp ∨ ev = .helpCircle) := by
  constructor
  · intro st texts raw now h
    simp [step, handleAnalysis, h]
  · intro st ev h
    cases ev with
    | analyze texts o now => exact Or.inl (handleAnalysis_showGuide _ _ _ _ _ h)
    | manual input o now =>
      refine Or.inl ?_
      simp only [step] at h
      split at h
      · exact h
      · have h2 := handleAnalysis_showGuide _ _ _ _ _ h
        exact h2
    | settled v o now =>
      refine Or.inl ?_
      simp only [step] at h
      split at h
      · have h2 := handleAnalysis_showGuide _ _ _ _ _ h
        exact h2
      · exact h
    | upload isCsv content o now =>
      refine Or.inl ?_
      simp only [step] at h
      split at h
      · exact h
      · have h2 := handleAnalysis_showGuide _ _ _ _ _ h
        exact h2
    | clearHistory => exact Or.inl h
    | dismissGuide => simp [step] at h
    | toggleHelp => exact Or.inr (Or.inl rfl)
    | helpCircle => exact Or.inr (Or.inr rfl)
    | improveStart srcId srcText => exact Or.inl h
    | improveResolve r => cases r <;> exact Or.inl h
    | improveDismiss => exact Or.inl h
    | clearError => exact Or.inl h

/-- Witness for C9 at concrete states and events. -/
theorem C9_witness :
    (step u0 initialState (.analyze [t0] (.success [raw0]) n0)).showGuide = false ∧
    ({ initialState with showGuide := false }.showGuide = true ∨
      Ev.helpCircle = Ev.toggleHelp ∨ Ev.helpCircle = Ev.helpCircle) :=
  ⟨(C9_guide_flag u0).1 initialState [t0] [raw0] n0 (by decide),
    (C9_guide_flag u0).2 { initialState with showGuide := false } .helpCircle (by decide)⟩

/-- C10: a result whose `analyses` sequence is empty is handled without
out-of-bounds access: it counts as not-Positive in the radial numerator
(`analyses[0]?.sentiment === 'Positive'` is false), the mood selection
falls back to the Neutral theme whether the result leads currentResults
or history, and the radial score stays well-defined (here 0% for a lone
such result). -/
theorem C10_empty_analyses (r : SentimentResult) (h : r.analyses = []) :
    isFirstPositive r = false ∧
    (∀ (rest history : List SentimentResult), moodColors (r :: rest) history = .neutralTheme) ∧
    (∀ (history : List SentimentResult), moodColors [] (r :: history) = .neutralTheme) ∧
    radialData [r] [] = [0] := by
  have hfp : isFirstPositive r = false := by simp [isFirstPositive, h]
  refine ⟨hfp, ?_, ?_, ?_⟩
  · intro rest history
    simp [moodColors, h]
  · intro history
    simp [moodColors, h]
  · have hfil : List.filter isFirstPositive [r] = [] := by simp [hfp]
    norm_num [radialData, hfil, jsRound, Int.floor_eq_zero_iff, Set.mem_Ico]

/-- Witness for C10 at the concrete empty-analyses result. -/
theorem C10_witness :
    isFirstPositive sampleEmpty = false ∧
    moodColors [sampleEmpty] [] = .neutralTheme ∧
    moodColors [] [sampleEmpty] = .neutralTheme ∧
    radialData [sampleEmpty] [] = [0] :=
  ⟨(C10_empty_analyses sampleEmpty rfl).1,
    (C10_empty_analyses sampleEmpty rfl).2.1 [] [],
    (C10_empty_analyses sampleEmpty rfl).2.2.1 [],
    (C10_empty_analyses sampleEmpty rfl).2.2.2⟩

/-- C6: the upload pipeline is exactly the claim's pipeline — first
comma field (CSV) or verbatim line, quote-stripped and trimmed, lines of
trimmed length ≤ 5 discarded, at most the first 10 survivors submitted;
on the claim's example CSV exactly `Great service` survives. -/
theorem C6_upload_filter :
    (∀ (isCsv : Bool) (content : Str),
        processUpload isCsv content = processUploadSpec isCsv content ∧
        (∀ l ∈ processUpload isCsv content, 5 < l.length) ∧
        ((processUpload isCsv content).take 10).length ≤ 10) ∧
    processUpload true exampleCsv = [exampleExtracted] ∧
    (processUpload true exampleCsv).take 10 = [exampleExtracted] := by
  refine ⟨?_, by decide, by decide⟩
  intro isCsv content
  refine ⟨?_, ?_, ?_⟩
  · cases isCsv <;>
      · simp only [processUpload, processUploadSpec, extractLine, if_true, if_false]
        exact List.filter_congr (by
          intro x _
          exact decide_eq_decide.mpr Nat.not_le.symm)
  · intro l hl
    cases isCsv <;>
      · simp [processUpload, List.mem_filter] at hl
        exact hl.2
  · calc ((processUpload isCsv content).take 10).length
        = min 10 (processUpload isCsv content).length := List.length_take 10 _
      _ ≤ 10 := min_le_left _ _

/-- Witness for C6: the refinement at a concrete non-CSV content, and the
length bound at the example's surviving line. -/
theorem C6_witness :
    processUpload false ['l', 'o', 'n', 'g', 'e', 'r', ' ', 'l', 'i', 'n', 'e'] =
      processUploadSpec false ['l', 'o', 'n', 'g', 'e', 'r', ' ', 'l', 'i', 'n', 'e'] ∧
    5 < exampleExtracted.length :=
  ⟨(C6_upload_filter.1 false ['l', 'o', 'n', 'g', 'e', 'r', ' ', 'l', 'i', 'n', 'e']).1,
    (C6_upload_filter.1 true exampleCsv).2.1 exampleExtracted (by decide)⟩

/-- C5 counterexample: with a single-entry history the sole trend point
is labelled `T-15`, not its reverse-chronological offset `T-1` from the
newest entry — the claim's labelling fails for histories shorter than 15
entries. -/
theorem C5_counterexample_label : ¬claimLabels (timeSeriesData [sampleEmpty]) := by
  intro hcl
  have h2 := hcl 0 (by decide)
  exact absurd h2 (by decide)

/-- C5 amended: the trend takes the most recent 15 history entries in
chronological order with mean-confidence percentage and per-sentiment
counts per entry, but labels point `i` with the fixed offset `T-(15 - i)`
from the start of a full window; these labels agree with the claimed
reverse-chronological offsets exactly when the history has at least 15
entries. -/
theorem C5_trend :
    (∀ (history : List SentimentResult), timeSeriesData history = timeSeriesSpec history) ∧
    (∀ (history : List SentimentResult), 15 ≤ history.length →
        claimLabels (timeSeriesData history)) := by
  constructor
  · intro history
    unfold timeSeriesData timeSeriesSpec
    rw [List.reverse_take]
  · intro history h15 i hi
    have hlen : (timeSeriesData history).length = 15 := by
      simp only [timeSeriesData, List.length_map, List.enum_length, List.length_drop,
        List.length_reverse]
      omega
    conv_rhs => rw [hlen]
    simp only [timeSeriesData, List.get_eq_getElem, List.getElem_map, List.getElem_enum]

/-- Witness for C5 at a concrete 15-entry history. -/
theorem C5_witness : claimLabels (timeSeriesData (List.replicate 15 sampleEmpty)) :=
  C5_trend.2 (List.replicate 15 sampleEmpty) (by decide)

/-- Every result stamped from counter position `c` carries an id drawn at
some position `c + i` with `i` below the batch length. -/
theorem stampResults_id_mem (uuidOf : Nat → Str) (now : Str) :
    ∀ (c : Nat) (raw : List RawResult) (r : SentimentResult),
      r ∈ stampResults uuidOf now c raw → ∃ i, i < raw.length ∧ r.id = uuidOf (c + i) := by
  intro c raw
  induction raw generalizing c with
  | nil =>
    intro r hr
    simp [stampResults] at hr
  | cons r0 rest ih =>
    intro r hr
    simp only [stampResults, List.mem_cons] at hr
    rcases hr with h | h
    · exact ⟨0, by simp, by simp [h]⟩
    · obtain ⟨i, hi, hid⟩ := ih (c + 1) r h
      refine ⟨i + 1, by simpa using Nat.succ_lt_succ hi, ?_⟩
      rw [hid]
      congr 1
      omega

/-- With an injective id oracle, ids determine results within one stamped
batch. -/
theorem stampResults_inj (uuidOf : Nat → Str) (now : Str)
    (hinj : Function.Injective uuidOf) :
    ∀ (c : Nat) (raw : List RawResult) (r1 r2 : SentimentResult),
      r1 ∈ stampResults uuidOf now c raw → r2 ∈ stampResults uuidOf now c raw →
      r1.id = r2.id → r1 = r2 := by
  intro c raw
  induction raw generalizing c with
  | nil =>
    intro r1 r2 h1
    simp [stampResults] at h1
  | cons r0 rest ih =>
    intro r1 r2 h1 h2 hid
    simp only [stampResults, List.mem_cons] at h1 h2
    rcases h1 with h1 | h1 <;> rcases h2 with h2 | h2
    · rw [h1, h2]
    · exfalso
      obtain ⟨i, _, hid2⟩ := stampResults_id_mem uuidOf now (c + 1) rest r2 h2
      rw [h1, hid2] at hid
      have := hinj hid
      omega
    · exfalso
      obtain ⟨i, _, hid1⟩ := stampResults_id_mem uuidOf now (c + 1) rest r1 h1
      rw [h2, hid1] at hid
      have := hinj hid
      omega
    · exact ih (c + 1) r1 r2 h1 h2 hid

/-- `handleAnalysis` preserves the id-freshness invariant: a failed or
rejected run leaves the store alone, and a successful run extends it only
with results stamped at fresh oracle positions. -/
theorem IdsOk_handleAnalysis (uuidOf : Nat → Str) (hinj : Function.Injective uuidOf)
    (now : Str) (st : AppState) (texts : List Str) (o : Outcome)
    (hok : IdsOk uuidOf st) : IdsOk uuidOf (handleAnalysis uuidOf now st texts o) := by
  obtain ⟨hbound, huniq⟩ := hok
  unfold handleAnalysis
  split
  · exact ⟨hbound, huniq⟩
  · cases o with
    | failure => exact ⟨hbound, huniq⟩
    | success raw =>
      simp only [analyzeSentiment, IdsOk, storedResults]
      have hmem : ∀ r : SentimentResult,
          r ∈ (stampResults uuidOf now st.uuidCounter raw ++ st.history) ++
              stampResults uuidOf now st.uuidCounter raw →
          r ∈ stampResults uuidOf now st.uuidCounter raw ∨ r ∈ storedResults st := by
        intro r hr
        rcases List.mem_append.mp hr with h | h
        · rcases List.mem_append.mp h with h' | h'
          · exact Or.inl h'
          · exact Or.inr (List.mem_append.mpr (Or.inl h'))
        · exact Or.inl h
      constructor
      · intro r hr
        rcases hmem r hr with h | h
        · obtain ⟨i, hi, hid⟩ := stampResults_id_mem uuidOf now st.uuidCounter raw r h
          exact ⟨st.uuidCounter + i, by omega, hid⟩
        · obtain ⟨k, hk, hid⟩ := hbound r h
          exact ⟨k, by omega, hid⟩
      · intro r1 h1 r2 h2 hid
        rcases hmem r1 h1 with ha | ha <;> rcases hmem r2 h2 with hb | hb
        · exact stampResults_inj uuidOf now hinj st.uuidCounter raw r1 r2 ha hb hid
        · exfalso
          obtain ⟨i, _, hid1⟩ := stampResults_id_mem uuidOf now st.uuidCounter raw r1 ha
          obtain ⟨k, hk, hid2⟩ := hbound r2 hb
          rw [hid1, hid2] at hid
          have := hinj hid
          omega
        · exfalso
          obtain ⟨i, _, hid1⟩ := stampResults_id_mem uuidOf now st.uuidCounter raw r2 hb
          obtain ⟨k, hk, hid2⟩ := hbound r1 ha
          rw [hid1, hid2] at hid
          have := hinj hid
          omega
        · exact huniq r1 ha r2 hb hid

/-- Every component transition preserves the id-freshness invariant. -/
theorem IdsOk_step (uuidOf : Nat → Str) (hinj : Function.Injective uuidOf)
    (st : AppState) (ev : Ev) (hok : IdsOk uuidOf st) : IdsOk uuidOf (step uuidOf st ev) := by
  cases ev with
  | analyze texts o now => exact IdsOk_handleAnalysis uuidOf hinj now st texts o hok
  | manual input o now =>
    simp only [step]
    split
    · exact hok
    · exact IdsOk_handleAnalysis uuidOf hinj now _ [input] o hok
  | settled v o now =>
    simp only [step]
    split
    · exact IdsOk_handleAnalysis uuidOf hinj now _ [v] o hok
    · exact hok
  | upload isCsv content o now =>
    simp only [step]
    split
    · exact hok
    · exact IdsOk_handleAnalysis uuidOf hinj now _ _ o hok
  | clearHistory =>
    obtain ⟨hbound, huniq⟩ := hok
    refine ⟨?_, ?_⟩
    · intro r hr
      exact hbound r (List.mem_append.mpr (Or.inr hr))
    · intro r1 h1 r2 h2 hid
      exact huniq r1 (List.mem_append.mpr (Or.inr h1)) r2 (List.mem_append.mpr (Or.inr h2)) hid
  | dismissGuide => exact hok
  | toggleHelp => exact hok
  | helpCircle => exact hok
  | improveStart srcId srcText => exact hok
  | improveResolve r => cases r <;> exact hok
  | improveDismiss => exact hok
  | clearError => exact hok

/-- Running any event trace preserves the id-freshness invariant. -/
theorem IdsOk_run (uuidOf : Nat → Str) (hinj : Function.Injective uuidOf) :
    ∀ (evs : List Ev) (st : AppState), IdsOk uuidOf st → IdsOk uuidOf (run uuidOf st evs) := by
  intro evs
  induction evs with
  | nil => exact fun st h => h
  | cons e rest ih => exact fun st h => ih (step uuidOf st e) (IdsOk_step uuidOf hinj st e h)

/-- The initial state stores nothing, so the invariant holds vacuously. -/
theorem IdsOk_initial (uuidOf : Nat → Str) : IdsOk uuidOf initialState := by
  constructor
  · intro r hr
    simp [storedResults, initialState] at hr
  · intro r1 h1
    simp [storedResults, initialState] at h1

/-- C8: across the whole process lifetime (any event trace from the
initial state), no two stored `AnalysisResults` — whether in `history` or
in `currentResults` — share an id: under the standard freshness
assumption that the `crypto.randomUUID()` oracle never repeats
(injectivity), equal ids imply the very same stored result, even across
repeated identical input text. -/
theorem C8_id_unique (uuidOf : Nat → Str) (hinj : Function.Injective uuidOf)
    (evs : List Ev) (r1 r2 : SentimentResult)
    (h1 : r1 ∈ storedResults (run uuidOf initialState evs))
    (h2 : r2 ∈ storedResults (run uuidOf initialState evs))
    (hid : r1.id = r2.id) : r1 = r2 :=
  (IdsOk_run uuidOf hinj evs initialState (IdsOk_initial uuidOf)).2 r1 h1 r2 h2 hid

/-- Witness for C8 at the concrete oracle `u0` and a one-batch trace. -/
theorem C8_witness :
    ({ id := [], text := t0, timestamp := n0, analyses := [] } : SentimentResult) =
      { id := [], text := t0, timestamp := n0, analyses := [] } :=
  C8_id_unique u0 u0_injective [.analyze [t0] (.success [raw0]) n0]
    { id := [], text := t0, timestamp := n0, analyses := [] }
    { id := [], text := t0, timestamp := n0, analyses := [] }
    (by decide) (by decide) rfl

end Sentilux
